import Mathlib

/-!
Shallow embedding of `src/krx_daily_to_sheet.py` and verification of the
specification claims about it.

Conventions of the embedding:
  * Python strings are Lean `String`s; pandas cell values are modelled by
    `Cell`, which records how the Python coercions `int(x)` and `float(x)`
    behave on the value (`none` = the coercion raises).
  * A pandas `DataFrame` is a `Table`: its ordered column labels plus its
    rows; a row maps a column label to the cell stored there (`none` = the
    label is not present, so indexing raises).  `df.empty` is `rows = []`.
  * A raised Python exception that escapes a function is `Except.error ()`;
    functions whose exceptions are all caught internally are total.
-/

namespace KrxDaily

/-- Behaviour of one raw cell value under the Python coercions:
`asInt = none` means `int(x)` raises, `asFloat = none` means `float(x)`
raises. -/
structure Cell where
  asInt : Option Int
  asFloat : Option Rat
  deriving DecidableEq, Repr

/-- A provider result table: ordered column labels and rows; each row maps
a label to its cell (`none` when the label is absent).  `rows = []` models
`df.empty`. -/
structure Table where
  cols : List String
  rows : List (String → Option Cell)

/-- Bool-valued substring test, modelling Python `needle in hay` on
strings (viewed as char lists). -/
def isSubOf (needle : List Char) : List Char → Bool
  | [] => needle.isEmpty
  | c :: t => needle.isPrefixOf (c :: t) || isSubOf needle t

/-- `s.replace(" ", "")`: drop every ASCII space character. -/
def stripSpaces (s : String) : String :=
  String.mk (s.data.filter (fun c => !(c == ' ')))

/-- The fixed character class removed by the second substitution in
`_norm` (parentheses, brackets, braces, percent signs, the currency-unit
glyph, comma, period, hyphen, underscore, slash). -/
def punctChars : List Char :=
  ['(', ')', '[', ']', '\x7b', '\x7d', '％', '%', '원', ',', '.', '-', '_', '/']

/-- Second substitution of `_norm`: drop each character of `punctChars`. -/
def stripPunct (s : String) : String :=
  String.mk (s.data.filter (fun c => !(punctChars.contains c)))

/-- Third substitution of `_norm`: drop decimal digits. -/
def stripDigits (s : String) : String :=
  String.mk (s.data.filter (fun c => !(c.isDigit)))

/-- `_norm` on an actual string: remove spaces, then the punctuation/unit
characters, then digits. -/
def norm (s : String) : String :=
  stripDigits (stripPunct (stripSpaces s))

/-- `_norm` including the `None` guard (`if s is None: return ""`). -/
def normOpt : Option String → String
  | none => ""
  | some s => norm s

/-- One insertion into a Python dict rendered as an association list:
an existing key keeps its position but its value is overwritten; a new
key is appended at the end. -/
def dictInsert (m : List (String × String)) (k v : String) :
    List (String × String) :=
  if m.any (fun p => p.1 == k) then
    m.map (fun p => if p.1 == k then (p.1, v) else p)
  else m ++ [(k, v)]

/-- The dict comprehension `norm_map` built over the column labels in
table order. -/
def buildNormMap (cols : List String) : List (String × String) :=
  cols.foldl (fun m c => dictInsert m (norm c) c) []

/-- Python dict lookup `m[k]` / membership `k in m` combined: the value
stored at `k`, if any. -/
def lookupMap (m : List (String × String)) (k : String) : Option String :=
  (m.find? (fun p => p.1 == k)).map (fun p => p.2)

/-- Tier 1 of `pick_col`: first candidate that is literally one of the
column labels. -/
def tier1 (cols : List String) (cands : List String) : Option String :=
  cands.find? (fun c => cols.contains c)

/-- Tier 2 of `pick_col`: first candidate whose normalized key is a key
of `norm_map`; the mapped column label is returned. -/
def tier2 (m : List (String × String)) (cands : List String) : Option String :=
  cands.findSome? (fun c => lookupMap m (norm c))

/-- Tier 3 of `pick_col`: first candidate (with a truthy, i.e. non-empty,
normalized key) whose key is a substring of some normalized column key,
map entries scanned in order; the entry's column label is returned. -/
def tier3 (m : List (String × String)) (cands : List String) : Option String :=
  cands.findSome? (fun c =>
    (m.find? (fun p => decide (norm c ≠ "") && isSubOf (norm c).data p.1.data)).map
      (fun p => p.2))

/-- `pick_col(df, candidates)`: `None` for a missing or empty frame, else
the three-tier resolution. -/
def pick_col (odf : Option Table) (cands : List String) : Option String :=
  match odf with
  | none => none
  | some df =>
    if df.rows.isEmpty then none
    else
      let m := buildNormMap df.cols
      match tier1 df.cols cands with
      | some c => some c
      | none =>
        match tier2 m cands with
        | some v => some v
        | none => tier3 m cands

/-- Spec-side description of tier 2/3 value selection: the last column
label in table order whose normalized key is `k`. -/
def lastWith (cols : List String) (k : String) : Option String :=
  (cols.filter (fun c => norm c == k)).getLast?

/-- Spec-side description of the map's key order: the distinct normalized
keys of the column labels, in order of first occurrence. -/
def keyList (cols : List String) : List String :=
  cols.foldl (fun ks c => if norm c ∈ ks then ks else ks ++ [norm c]) []

/-- Value that the normalization map associates to a key, described
spec-side (`""` is an unused default for absent keys). -/
def valAt (cols : List String) (k : String) : String :=
  (lastWith cols k).getD ""

/-- Resolver written from the (amended) specification words: tier 1 exact
candidate-order match; tier 2 normalized-key equality returning, for the
winning candidate, the last table column bearing that key; tier 3
non-empty substring containment over the distinct normalized keys in
first-occurrence order, again returning the last column bearing the
matched key. -/
def resolveSpec (t : Table) (cands : List String) : Option String :=
  match tier1 t.cols cands with
  | some c => some c
  | none =>
    match cands.findSome? (fun c => lastWith t.cols (norm c)) with
    | some v => some v
    | none =>
      cands.findSome? (fun c =>
        if norm c == "" then none
        else
          ((keyList t.cols).find? (fun k => isSubOf (norm c).data k.data)).bind
            (lastWith t.cols))

/-! ### Trading-day locator (`get_recent_trading_day`) -/

/-- Outcome of one single-day index query, as the loop body observes it:
a frame with at least one row, a `None`/empty frame, or a raised (and
swallowed) exception. -/
inductive DayResult where
  | hasRows
  | noRows
  | err
  deriving DecidableEq, Repr

/-- The bounded walk-back loop of `get_recent_trading_day`: at most `k`
iterations, each querying day `d` and stepping back one day unless the
query produced rows.  Days are integers (one unit = one calendar day). -/
def grd_go (q : Int → DayResult) : Nat → Int → Int
  | 0, d => d
  | k + 1, d =>
    match q d with
    | DayResult.hasRows => d
    | _ => grd_go q k (d - 1)

/-- `get_recent_trading_day(base_date)` with its fixed bound of 20. -/
def get_recent_trading_day (q : Int → DayResult) (base : Int) : Int :=
  grd_go q 20 base

/-- Instrumented copy of the same loop recording the days actually
queried, in order. -/
def daysQueried_go (q : Int → DayResult) : Nat → Int → List Int
  | 0, _ => []
  | k + 1, d =>
    match q d with
    | DayResult.hasRows => [d]
    | _ => d :: daysQueried_go q k (d - 1)

/-- The list of days `get_recent_trading_day` queries. -/
def days_queried (q : Int → DayResult) (base : Int) : List Int :=
  daysQueried_go q 20 base

/-! ### Investor enrichment (`try_fetch_investor`) -/

/-- The three investor-class fields of the returned dict. -/
structure InvOut where
  indiv : Option Int
  frgn : Option Int
  inst : Option Int
  deriving DecidableEq, Repr

/-- How the candidate provider call behaves: `hasattr` is false, the call
raises, or it returns (`none` = a `None` frame). -/
inductive InvProvider where
  | unsupported
  | raises
  | result (df : Option Table)

/-- One iteration of `for k in out: if k in rec: out[k] = int(rec[k])`:
an absent key leaves the field unchanged, a present key is coerced and
`int` may raise (`Except.error`). -/
def invStep (cur : Option Int) (c : Option Cell) : Except Unit (Option Int) :=
  match c with
  | none => Except.ok cur
  | some cell =>
    match cell.asInt with
    | none => Except.error ()
    | some n => Except.ok (some n)

/-- `try_fetch_investor`: total — every exception is caught inside; a
coercion failure mid-loop keeps the fields assigned before it. -/
def try_fetch_investor (includeInvestor : Bool) (p : InvProvider) : InvOut :=
  let out0 : InvOut := ⟨none, none, none⟩
  if !includeInvestor then out0
  else
    match p with
    | InvProvider.unsupported => out0
    | InvProvider.raises => out0
    | InvProvider.result none => out0
    | InvProvider.result (some t) =>
      match t.rows with
      | [] => out0
      | r :: _ =>
        match invStep none (r "개인") with
        | Except.error _ => out0
        | Except.ok a =>
          match invStep none (r "외국인합계") with
          | Except.error _ => { out0 with indiv := a }
          | Except.ok b =>
            match invStep none (r "기관합계") with
            | Except.error _ => { out0 with indiv := a, frgn := b }
            | Except.ok c => ⟨a, b, c⟩

/-! ### Short-interest enrichment (`try_fetch_short`) -/

/-- The three short-interest fields of the returned dict. -/
structure ShortOut where
  qty : Option Int
  amt : Option Int
  ratio : Option Rat
  deriving DecidableEq, Repr

/-- The space-stripped map built by the local resolver `pick_s`. -/
def buildSpaceMap (cols : List String) : List (String × String) :=
  cols.foldl (fun m c => dictInsert m (stripSpaces c) c) []

/-- The local two-tier resolver `pick_s`: exact membership, then
space-stripped key lookup. -/
def pick_s (tcols : List String) (cands : List String) : Option String :=
  match tier1 tcols cands with
  | some c => some c
  | none => cands.findSome? (fun c => lookupMap (buildSpaceMap tcols) (stripSpaces c))

/-- Python truthiness of an optional string (`None` and `""` are falsy). -/
def truthy : Option String → Bool
  | none => false
  | some s => !(s == "")

/-- `int(srow[c])`: label lookup or `int` coercion may raise. -/
def coerceIntAt (row : String → Option Cell) (c : String) : Except Unit Int :=
  match row c with
  | none => Except.error ()
  | some cell =>
    match cell.asInt with
    | none => Except.error ()
    | some n => Except.ok n

/-- `if col: out[k] = int(srow[col])` for the quantity and value fields:
the coercion is NOT guarded, so its exception escapes. -/
def shortField (row : String → Option Cell) (oc : Option String) :
    Except Unit (Option Int) :=
  if truthy oc then (coerceIntAt row oc.get!).map some
  else Except.ok none

/-- `try_fetch_short`: the fetch itself is guarded (a raising fetch is the
`none` frame case), the ratio coercion is guarded, but the quantity and
value coercions are not — their exception propagates to the caller. -/
def try_fetch_short (includeShort : Bool) (df : Option Table) :
    Except Unit ShortOut :=
  let out0 : ShortOut := ⟨none, none, none⟩
  if !includeShort then Except.ok out0
  else
    match df with
    | none => Except.ok out0
    | some t =>
      match t.rows with
      | [] => Except.ok out0
      | srow :: _ =>
        let qty_col := pick_s t.cols ["공매도 거래량", "공매도수량", "거래량"]
        let amt_col := pick_s t.cols ["공매도 거래대금", "공매도거래대금", "거래대금", "거래대금(원)"]
        let ratio_col := pick_s t.cols ["공매도 비중", "공매도비중", "비중"]
        match shortField srow qty_col with
        | Except.error e => Except.error e
        | Except.ok q =>
          match shortField srow amt_col with
          | Except.error e => Except.error e
          | Except.ok a =>
            let r : Option Rat :=
              if truthy ratio_col then (srow ratio_col.get!).bind (fun cell => cell.asFloat)
              else none
            Except.ok ⟨q, a, r⟩

/-! ### Record assembler (`fetch_daily_for_ticker`) -/

/-- One assembled record (the `rec` dict); key names romanized. -/
structure Rec where
  date : String
  ticker : String
  name : String
  openV : Int
  highV : Int
  lowV : Int
  closeV : Int
  volumeV : Int
  valueV : Option Int
  indiv : Option Int
  frgn : Option Int
  inst : Option Int
  shortQty : Option Int
  shortAmt : Option Int
  shortRatio : Option Rat
  deriving DecidableEq, Repr

/-- The diagnostics the assembler prints. -/
inductive LogMsg where
  | warnNoData (ticker date : String)
  | warnMissing (ticker : String) (missing observed : List String)
  | warnExc (ticker : String)
  deriving DecidableEq, Repr

/-- `datetime.strptime(s, "%Y%m%d").strftime("%Y-%m-%d")`. -/
def isoOfCompact (s : String) : String :=
  String.mk (s.data.take 4) ++ "-" ++ String.mk ((s.data.drop 4).take 2)
    ++ "-" ++ String.mk (s.data.drop 6)

/-- Provider environment one `fetch_daily_for_ticker` call sees. -/
structure FetchEnv where
  ohlcv : Option Table
  name : Option String
  includeInvestor : Bool
  investor : InvProvider
  includeShort : Bool
  short : Option Table

/-- The `needed` list: logical name and resolved column of the five
required fields. -/
def requiredNeeded (t : Table) : List (String × Option String) :=
  [("시가", pick_col (some t) ["시가"]),
   ("고가", pick_col (some t) ["고가"]),
   ("저가", pick_col (some t) ["저가"]),
   ("종가", pick_col (some t) ["종가"]),
   ("거래량", pick_col (some t) ["거래량"])]

/-- `missing`: logical names whose column did not resolve. -/
def requiredMissing (t : Table) : List String :=
  ((requiredNeeded t).filter (fun p => p.2.isNone)).map (fun p => p.1)

/-- `int(row[c])` with every failure collapsed to `none` (the caller
decides whether that is caught or fatal). -/
def reqCoerce (row : String → Option Cell) (oc : Option String) : Option Int :=
  oc.bind (fun c => (row c).bind (fun cell => cell.asInt))

/-- `fetch_daily_for_ticker`: the assembled record (or `none`) and the
diagnostics printed.  An uncaught exception below the top of the function
is caught by its outer `try` and reported as `warnExc`. -/
def fetch_daily_for_ticker (fe : FetchEnv) (date_str ticker : String) :
    Option Rec × List LogMsg :=
  match fe.ohlcv with
  | none => (none, [LogMsg.warnNoData ticker date_str])
  | some t =>
    match t.rows with
    | [] => (none, [LogMsg.warnNoData ticker date_str])
    | row :: _ =>
      if requiredMissing t ≠ [] then
        (none, [LogMsg.warnMissing ticker (requiredMissing t) t.cols])
      else
        let val_col := pick_col (some t) ["거래대금", "거래대금(원)", "거래 대금", "거래대금(백만)"]
        let value_val := reqCoerce row val_col
        let ticker_name := fe.name.getD ""
        match reqCoerce row (pick_col (some t) ["시가"]),
              reqCoerce row (pick_col (some t) ["고가"]),
              reqCoerce row (pick_col (some t) ["저가"]),
              reqCoerce row (pick_col (some t) ["종가"]),
              reqCoerce row (pick_col (some t) ["거래량"]) with
        | some o, some hi, some lo, some cl, some v =>
          let inv := try_fetch_investor fe.includeInvestor fe.investor
          match try_fetch_short fe.includeShort fe.short with
          | Except.error _ => (none, [LogMsg.warnExc ticker])
          | Except.ok sh =>
            (some { date := isoOfCompact date_str, ticker := ticker,
                    name := ticker_name,
                    openV := o, highV := hi, lowV := lo, closeV := cl,
                    volumeV := v, valueV := value_val,
                    indiv := inv.indiv, frgn := inv.frgn, inst := inv.inst,
                    shortQty := sh.qty, shortAmt := sh.amt,
                    shortRatio := sh.ratio }, [])
        | _, _, _, _, _ => (none, [LogMsg.warnExc ticker])

/-! ### Serialization, deduplication and the driver -/

/-- A spreadsheet cell as appended with `value_input_option="RAW"`: a
string, an integer, a float, or the empty cell a Python `None` becomes. -/
inductive CellOut where
  | s (v : String)
  | i (n : Int)
  | f (q : Rat)
  | blank
  deriving DecidableEq, Repr

/-- Render of an optional integer field: absent is the empty cell. -/
def optCellI : Option Int → CellOut
  | none => CellOut.blank
  | some n => CellOut.i n

/-- Render of an optional float field: absent is the empty cell. -/
def optCellF : Option Rat → CellOut
  | none => CellOut.blank
  | some q => CellOut.f q

/-- The canonical Korean header. -/
def KR_HEADER : List String :=
  ["날짜", "종목코드", "종목명", "시가", "고가", "저가", "종가",
   "거래량", "거래대금", "개인", "외국인합계", "기관합계",
   "공매도수량", "공매도거래대금", "공매도비중"]

/-- `rec.get(h, "")` followed by cell rendering. -/
def recGet (r : Rec) (h : String) : CellOut :=
  if h == "날짜" then CellOut.s r.date
  else if h == "종목코드" then CellOut.s r.ticker
  else if h == "종목명" then CellOut.s r.name
  else if h == "시가" then CellOut.i r.openV
  else if h == "고가" then CellOut.i r.highV
  else if h == "저가" then CellOut.i r.lowV
  else if h == "종가" then CellOut.i r.closeV
  else if h == "거래량" then CellOut.i r.volumeV
  else if h == "거래대금" then optCellI r.valueV
  else if h == "개인" then optCellI r.indiv
  else if h == "외국인합계" then optCellI r.frgn
  else if h == "기관합계" then optCellI r.inst
  else if h == "공매도수량" then optCellI r.shortQty
  else if h == "공매도거래대금" then optCellI r.shortAmt
  else if h == "공매도비중" then optCellF r.shortRatio
  else CellOut.s ""

/-- `row = [rec.get(h, "") for h in KR_HEADER]`. -/
def toRow (r : Rec) : List CellOut := KR_HEADER.map (recGet r)

/-- The string `get_all_values` reports for a cell. -/
def cellStr : CellOut → String
  | CellOut.s v => v
  | CellOut.i n => toString n
  | CellOut.f q => toString q
  | CellOut.blank => ""

/-- `existing_dates(ws)`: first-column values of the body rows (all rows
after the header), skipping falsy (empty) ones. -/
def existing_dates (sheet : List (List CellOut)) : List String :=
  (sheet.drop 1).filterMap (fun row =>
    match row.head? with
    | none => none
    | some c => if cellStr c ≠ "" then some (cellStr c) else none)

/-- The per-ticker dedup-and-append step of `main` (lines 250-259): skip
when the record's date is already a key, else append the serialized row.
The Bool reports whether the duplicate was skipped (and logged). -/
def dedupAppend (sheet : List (List CellOut)) (r : Rec) :
    List (List CellOut) × Bool :=
  let seen := existing_dates sheet
  if r.date ∈ seen then (sheet, true) else (sheet ++ [toRow r], false)

/-- The header row as stored in the sheet. -/
def headerCells : List CellOut := KR_HEADER.map CellOut.s

/-- Title of a per-ticker sheet. -/
def sheetTitle (ticker name : String) : String :=
  if name == "" then ticker else (ticker ++ " " ++ name).trim

/-- `ensure_ticker_sheet`: create the sheet with the header if absent;
repair a diverged header row without touching body rows. -/
def ensureSheet (cur : Option (List (List CellOut))) : List (List CellOut) :=
  match cur with
  | none => [headerCells]
  | some rows =>
    if rows.head? = some headerCells then rows
    else
      match rows with
      | [] => [headerCells]
      | _ :: body => headerCells :: body

/-- Sheet lookup by title in the destination spreadsheet. -/
def lookupSheet (w : List (String × List (List CellOut))) (title : String) :
    Option (List (List CellOut)) :=
  (w.find? (fun p => p.1 == title)).map (fun p => p.2)

/-- Store a sheet under a title (create or replace). -/
def upsertSheet (w : List (String × List (List CellOut))) (title : String)
    (s : List (List CellOut)) : List (String × List (List CellOut)) :=
  if w.any (fun p => p.1 == title) then
    w.map (fun p => if p.1 == title then (p.1, s) else p)
  else w ++ [(title, s)]

/-- One iteration of the per-ticker loop of `main`: fetch, skip on `none`,
else ensure the sheet, dedup and append; the counter tracks
`appended_total`. -/
def runTicker (fe : FetchEnv) (date_str : String)
    (acc : List (String × List (List CellOut)) × Nat) (t : String) :
    List (String × List (List CellOut)) × Nat :=
  match (fetch_daily_for_ticker fe date_str t).1 with
  | none => acc
  | some r =>
    let title := sheetTitle t r.name
    let sheet := ensureSheet (lookupSheet acc.1 title)
    let step := dedupAppend sheet r
    (upsertSheet acc.1 title step.1, if step.2 then acc.2 else acc.2 + 1)

/-- Environment of one whole run of `main`. -/
structure RunEnv where
  sa_json : Option String
  sheet_id : Option String
  tickers : List String
  baseDay : Int
  indexQuery : Int → DayResult
  fmt : Int → String
  authOk : Bool
  provider : String → String → FetchEnv
  sheets0 : List (String × List (List CellOut))

/-- Python falsiness of an optional env string. -/
def falsy : Option String → Bool
  | none => true
  | some s => s == ""

/-- The fatal misconfiguration check of `main`. -/
def misconfig (env : RunEnv) : Bool := falsy env.sa_json || falsy env.sheet_id

/-- Observable outcome of `main`: exit status, final destination state,
whether the configuration diagnostic was printed, and whether the
top-level handler caught an exception (printing the stack trace). -/
structure MainResult where
  exit : Int
  world : List (String × List (List CellOut))
  configError : Bool
  excCaught : Bool

/-- `main()`: misconfiguration returns 0 after a diagnostic and touches
nothing; a raising authorization/open is caught at top level and still
returns 0; otherwise the run resolves the trading day and folds the
per-ticker loop, returning 0. -/
def main (env : RunEnv) : MainResult :=
  if misconfig env then ⟨0, env.sheets0, true, false⟩
  else if !env.authOk then ⟨0, env.sheets0, false, true⟩
  else
    let day := get_recent_trading_day env.indexQuery env.baseDay
    let date_str := env.fmt day
    let acc := env.tickers.foldl
      (fun a t => runTicker (env.provider date_str t) date_str a t)
      (env.sheets0, 0)
    ⟨0, acc.1, false, false⟩

/-! ### Concrete fixtures used by witnesses and counterexamples -/

/-- The single character-keep predicate the three removal passes of
`_norm` compose to. -/
def keepChar (c : Char) : Bool :=
  (!(c.isDigit) && !(punctChars.contains c)) && !(c == ' ')

/-- The enrichment-query failure modes of claim C7: provider function
missing, the call raising, a `None` frame, or an empty frame. -/
def invQueryFailed (p : InvProvider) : Prop :=
  p = InvProvider.unsupported ∨ p = InvProvider.raises
    ∨ p = InvProvider.result none
    ∨ ∃ t, p = InvProvider.result (some t) ∧ t.rows = []

/-- A cell holding a well-behaved integer value. -/
def cellI (n : Int) : Cell := ⟨some n, some n⟩

/-- A cell on which both coercions raise (e.g. a dash placeholder). -/
def cellBad : Cell := ⟨none, none⟩

/-- Build a row function from an association list. -/
def rowOf (l : List (String × Cell)) : String → Option Cell :=
  fun c => (l.find? (fun p => p.1 == c)).map (fun p => p.2)

/-- A one-row table whose two labels share the normalized key 거래대금. -/
def tblA : Table :=
  ⟨["거래대금(원)", "거래대금"],
   [rowOf [("거래대금(원)", cellI 1), ("거래대금", cellI 2)]]⟩

/-- A table with columns but zero rows. -/
def tblB : Table := ⟨["시가"], []⟩

/-- A one-row table whose single label normalizes to the empty string. -/
def tbl10 : Table := ⟨["()"], [rowOf [("()", cellI 1)]]⟩

/-- The spec's exact-match example table. -/
def tblFooBar : Table :=
  ⟨["bar", "foo"], [rowOf [("bar", cellI 1), ("foo", cellI 2)]]⟩

/-- First row of the healthy OHLCV fixture. -/
def rowOhlcv : String → Option Cell :=
  rowOf [("시가", cellI 100), ("고가", cellI 110), ("저가", cellI 90),
         ("종가", cellI 105), ("거래량", cellI 1000), ("거래대금", cellI 50000)]

/-- A well-formed primary OHLCV table. -/
def ohlcvTblEx : Table :=
  ⟨["시가", "고가", "저가", "종가", "거래량", "거래대금"], [rowOhlcv]⟩

/-- First row of the volume-less OHLCV fixture. -/
def rowMissing : String → Option Cell :=
  rowOf [("시가", cellI 100), ("고가", cellI 110), ("저가", cellI 90),
         ("종가", cellI 105)]

/-- A non-empty primary table with no resolvable volume column. -/
def ohlcvMissingVol : Table := ⟨["시가", "고가", "저가", "종가"], [rowMissing]⟩

/-- Environment for the C3 witness: primary table lacks the volume
column. -/
def feC3 : FetchEnv :=
  ⟨some ohlcvMissingVol, some "", false, InvProvider.unsupported, false, none⟩

/-- A short-interest table whose quantity cell fails integer coercion. -/
def shortTblBad : Table :=
  ⟨["공매도수량", "공매도거래대금", "공매도비중"],
   [rowOf [("공매도수량", cellBad), ("공매도거래대금", cellI 5),
           ("공매도비중", ⟨some 1, some 1⟩)]]⟩

/-- Environment for the C4 failing input: healthy required fields, short
reporting enabled, quantity cell not coercible. -/
def feC4 : FetchEnv :=
  ⟨some ohlcvTblEx, some "샘플", true, InvProvider.result none, true,
   some shortTblBad⟩

/-- Environment for the C7 witness: the investor query raises; the rest
is healthy. -/
def feC7 : FetchEnv :=
  ⟨some ohlcvTblEx, some "샘플", true, InvProvider.raises, true, none⟩

/-- The always-empty index query. -/
def qEmpty : Int → DayResult := fun _ => DayResult.noRows

/-- A record with every optional field absent. -/
def rec0 : Rec :=
  ⟨"2025-09-29", "082270", "샘플", 100, 110, 90, 105, 1000,
   none, none, none, none, none, none, none⟩

/-- A sheet holding only the canonical header. -/
def sheetHdr : List (List CellOut) := [headerCells]

/-- A misconfigured run environment (no credential). -/
def envMis : RunEnv :=
  ⟨none, some "sheet-id", ["082270"], 0, qEmpty, fun _ => "20250929", true,
   fun _ _ => feC7, []⟩

/-! ### Helper lemmas about the normalization map -/

theorem keyList_concat (ds : List String) (c : String) :
    keyList (ds ++ [c]) =
      if norm c ∈ keyList ds then keyList ds else keyList ds ++ [norm c] := by
  simp [keyList, List.foldl_append]

theorem buildNormMap_concat (ds : List String) (c : String) :
    buildNormMap (ds ++ [c]) = dictInsert (buildNormMap ds) (norm c) c := by
  simp [buildNormMap, List.foldl_append]

theorem mem_keyList (cols : List String) (k : String) :
    k ∈ keyList cols ↔ ∃ c ∈ cols, norm c = k := by
  induction cols using List.reverseRecOn with
  | nil => simp [keyList]
  | append_singleton ds c ih =>
    rw [keyList_concat]
    by_cases h : norm c ∈ keyList ds
    · rw [if_pos h]
      simp only [List.mem_append, List.mem_singleton]
      constructor
      · intro hk
        rcases ih.mp hk with ⟨c', hc', he⟩
        exact ⟨c', Or.inl hc', he⟩
      · rintro ⟨c', hc' | hc', he⟩
        · exact ih.mpr ⟨c', hc', he⟩
        · subst hc'; subst he; exact h
    · rw [if_neg h]
      simp only [List.mem_append, List.mem_singleton]
      rw [ih]
      constructor
      · rintro (⟨c', hc', he⟩ | hk)
        · exact ⟨c', Or.inl hc', he⟩
        · exact ⟨c, Or.inr rfl, hk.symm⟩
      · rintro ⟨c', hc' | hc', he⟩
        · exact Or.inl ⟨c', hc', he⟩
        · subst hc'; exact Or.inr he.symm

theorem lastWith_concat (ds : List String) (c k : String) :
    lastWith (ds ++ [c]) k =
      if norm c = k then some c else lastWith ds k := by
  by_cases h : norm c = k
  · rw [if_pos h]
    unfold lastWith
    rw [List.filter_append,
      show List.filter (fun x => norm x == k) [c] = [c] by simp [h],
      List.getLast?_concat]
  · rw [if_neg h]
    unfold lastWith
    rw [List.filter_append,
      show List.filter (fun x => norm x == k) [c] = [] by simp [h],
      List.append_nil]

theorem lastWith_eq_none (cols : List String) (k : String) :
    lastWith cols k = none ↔ ∀ c ∈ cols, norm c ≠ k := by
  unfold lastWith
  rw [List.getLast?_eq_none_iff, List.filter_eq_nil_iff]
  simp

theorem lastWith_of_mem_keyList (cols : List String) (k : String)
    (h : k ∈ keyList cols) : lastWith cols k = some (valAt cols k) := by
  cases hl : lastWith cols k with
  | none =>
    rcases (mem_keyList cols k).mp h with ⟨c, hc, he⟩
    exact absurd he ((lastWith_eq_none cols k).mp hl c hc)
  | some v => simp [valAt, hl]

theorem lastWith_of_not_mem_keyList (cols : List String) (k : String)
    (h : k ∉ keyList cols) : lastWith cols k = none := by
  rw [lastWith_eq_none]
  intro c hc he
  exact h ((mem_keyList cols k).mpr ⟨c, hc, he⟩)

theorem buildNormMap_eq (cols : List String) :
    buildNormMap cols = (keyList cols).map (fun k => (k, valAt cols k)) := by
  induction cols using List.reverseRecOn with
  | nil => simp [buildNormMap, keyList]
  | append_singleton ds c ih =>
    rw [buildNormMap_concat, keyList_concat, ih]
    by_cases h : norm c ∈ keyList ds
    · rw [if_pos h]
      have hany : ((keyList ds).map (fun k => (k, valAt ds k))).any
          (fun p => p.1 == norm c) = true := by
        rw [List.any_eq_true]
        exact ⟨(norm c, valAt ds (norm c)),
          List.mem_map.mpr ⟨norm c, h, rfl⟩, by simp⟩
      rw [dictInsert, if_pos hany, List.map_map]
      apply List.map_congr_left
      intro k hk
      by_cases hkc : k = norm c
      · subst hkc
        simp [valAt, lastWith_concat, Function.comp]
      · have : norm c = k ↔ False := by simp [Ne.symm hkc]
        simp [valAt, lastWith_concat, hkc, Ne.symm hkc, Function.comp]
    · rw [if_neg h]
      have hany : ((keyList ds).map (fun k => (k, valAt ds k))).any
          (fun p => p.1 == norm c) = false := by
        rw [Bool.eq_false_iff]
        intro hco
        rcases List.any_eq_true.mp hco with ⟨p, hp, hpe⟩
        rcases List.mem_map.mp hp with ⟨k, hk, hfk⟩
        apply h
        have hp1 : p.1 = norm c := by simpa using hpe
        rw [← hfk] at hp1
        exact hp1 ▸ hk
      rw [dictInsert, if_neg (by simp [hany]), List.map_append]
      congr 1
      · apply List.map_congr_left
        intro k hk
        have hkc : norm c ≠ k := fun he => h (he ▸ hk)
        simp [valAt, lastWith_concat, hkc]
      · have : lastWith (ds ++ [c]) (norm c) = some c := by
          rw [lastWith_concat, if_pos rfl]
        simp [valAt, this]

theorem find?_beq (l : List String) (k : String) :
    l.find? (fun a => a == k) = if k ∈ l then some k else none := by
  induction l with
  | nil => simp
  | cons a t ih =>
    by_cases h : a = k
    · subst h; simp
    · rw [List.find?_cons]
      have hb : (a == k) = false := by simp [h]
      rw [hb, ih]
      by_cases hm : k ∈ t
      · rw [if_pos hm, if_pos (List.mem_cons.mpr (Or.inr hm))]
      · rw [if_neg hm, if_neg (by simp [Ne.symm h, hm])]

theorem lookup_buildNormMap (cols : List String) (k : String) :
    lookupMap (buildNormMap cols) k = lastWith cols k := by
  rw [lookupMap, buildNormMap_eq, List.find?_map]
  have hp : ((fun p : String × String => p.1 == k) ∘ fun k' => (k', valAt cols k')) =
      fun a => a == k := rfl
  rw [hp, find?_beq]
  by_cases h : k ∈ keyList cols
  · rw [if_pos h, lastWith_of_mem_keyList cols k h]
    rfl
  · rw [if_neg h, lastWith_of_not_mem_keyList cols k h]
    rfl

theorem findSome?_congr {α β : Type} (l : List α) (f g : α → Option β)
    (h : ∀ a ∈ l, f a = g a) : l.findSome? f = l.findSome? g := by
  induction l with
  | nil => rfl
  | cons a t ih =>
    rw [List.findSome?_cons, List.findSome?_cons, h a (List.mem_cons_self a t)]
    cases g a with
    | some b => rfl
    | none => exact ih (fun a ha => h a (List.mem_cons_of_mem _ ha))

theorem tier2_eq (cols : List String) (cands : List String) :
    tier2 (buildNormMap cols) cands =
      cands.findSome? (fun c => lastWith cols (norm c)) := by
  apply findSome?_congr
  intro c _
  exact lookup_buildNormMap cols (norm c)

theorem tier3_eq (cols : List String) (cands : List String) :
    tier3 (buildNormMap cols) cands =
      cands.findSome? (fun c =>
        if norm c == "" then none
        else
          ((keyList cols).find? (fun k => isSubOf (norm c).data k.data)).bind
            (lastWith cols)) := by
  apply findSome?_congr
  intro c _
  by_cases h : norm c = ""
  · have hfind : (buildNormMap cols).find?
        (fun p => decide (norm c ≠ "") && isSubOf (norm c).data p.1.data) = none := by
      rw [List.find?_eq_none]
      intro p _
      simp [h]
    rw [hfind, if_pos (by simp [h])]
    rfl
  · rw [if_neg (by simp [h])]
    have hd : (decide (norm c ≠ "")) = true := by simp [h]
    have hpr : (fun p : String × String =>
        decide (norm c ≠ "") && isSubOf (norm c).data p.1.data) =
        fun p => isSubOf (norm c).data p.1.data := by
      funext p
      rw [hd, Bool.true_and]
    rw [hpr, buildNormMap_eq, List.find?_map]
    have hco : ((fun p : String × String => isSubOf (norm c).data p.1.data) ∘
        fun k => (k, valAt cols k)) = fun k => isSubOf (norm c).data k.data := rfl
    rw [hco]
    cases hf : (keyList cols).find? (fun k => isSubOf (norm c).data k.data) with
    | none => rfl
    | some k =>
      have hk : k ∈ keyList cols := List.mem_of_find?_eq_some hf
      simp [lastWith_of_mem_keyList cols k hk]

/-! ### Claim C1 -/

/-- Claim C1 (amended): for every non-empty table with pairwise-distinct
column labels, `pick_col` implements the three-tier policy with candidate
order deciding ties between candidates, but inside tiers 2 and 3 an
actual label is selected through the normalization map: among labels
sharing a normalized key the LAST in table order wins, and tier 3 scans
the distinct normalized keys in first-occurrence order.  It returns
`none` iff no tier matches (`resolveSpec` is that policy verbatim). -/
theorem C1_resolver_refines_spec (t : Table) (cands : List String)
    (hnd : t.cols.Nodup) (hr : t.rows ≠ []) :
    pick_col (some t) cands = resolveSpec t cands := by
  have he : t.rows.isEmpty = false := by
    cases hrr : t.rows with
    | nil => exact absurd hrr hr
    | cons a l => rfl
  simp only [pick_col, resolveSpec, he, Bool.false_eq_true, if_false,
    tier2_eq, tier3_eq]

/-- Claim C1, as frozen, is false on two points: (a) with actual columns
거래대금(원), 거래대금 (distinct labels, same normalized key) and the
single candidate 거래 대금, the resolver returns the SECOND column even
though the first also normalize-matches, violating the table-order
tie-break; (b) on a table with columns but zero rows it returns `none`
even though an exact rule matches, violating the "absent iff no rule
matches" equivalence. -/
theorem C1_counterexample :
    pick_col (some tblA) ["거래 대금"] = some "거래대금"
      ∧ "거래대금" ≠ "거래대금(원)"
      ∧ norm "거래대금(원)" = norm "거래 대금"
      ∧ tblA.cols = ["거래대금(원)", "거래대금"]
      ∧ tblA.cols.Nodup
      ∧ pick_col (some tblB) ["시가"] = none
      ∧ tier1 tblB.cols ["시가"] = some "시가" := by
  refine ⟨rfl, by decide, by decide, rfl, by decide, rfl, rfl⟩

/-- Witness for C1 at the spec's own exact-match example. -/
theorem C1_witness :
    tblFooBar.cols.Nodup
      ∧ pick_col (some tblFooBar) ["foo", "bar"] =
          resolveSpec tblFooBar ["foo", "bar"]
      ∧ pick_col (some tblFooBar) ["foo", "bar"] = some "foo" :=
  ⟨by decide,
   C1_resolver_refines_spec tblFooBar ["foo", "bar"] (by decide)
     (List.cons_ne_nil _ _),
   rfl⟩

/-! ### Claim C2 -/

/-- Claim C2, as frozen, is false: `_norm` removes only the ASCII space
character, not all whitespace — a tab survives normalization. -/
theorem C2_counterexample :
    Char.isWhitespace '\t' = true
      ∧ normOpt (some "a\tb") = "a\tb"
      ∧ normOpt (some "a\tb") ≠ "ab" := by
  refine ⟨by decide, rfl, by decide⟩

/-- Claim C2 (amended): `_norm` is a pure function mapping `None` to the
empty string and otherwise removing exactly the ASCII space characters
(not all whitespace), the fixed punctuation/unit symbols, and the digit
characters; the two spec examples hold. -/
theorem C2_normalizer_amended :
    normOpt none = ""
      ∧ (∀ s : String, (norm s).data = s.data.filter keepChar)
      ∧ normOpt (some "거래대금(원)") = normOpt (some "거래대금")
      ∧ normOpt (some "종가") ≠ normOpt (some "시가") := by
  refine ⟨rfl, ?_, by decide, by decide⟩
  intro s
  show (stripDigits (stripPunct (stripSpaces s))).data = _
  rw [stripSpaces, stripPunct, stripDigits]
  rw [List.filter_filter, List.filter_filter]
  rfl

/-! ### Claim C10 -/

/-- Claim C10, as frozen, is false: tier 2 has no non-empty guard.  With
the single column `()` (normalized key empty) and the candidate `-`
(normalized key empty), no exact match exists, yet `pick_col` returns
`()` on the basis of the empty normalized key. -/
theorem C10_counterexample :
    norm "-" = ""
      ∧ tier1 tbl10.cols ["-"] = none
      ∧ pick_col (some tbl10) ["-"] = some "()" := by
  refine ⟨by decide, rfl, rfl⟩

/-- Claim C10 (amended): the substring tier never matches on the basis of
an empty normalized candidate key (candidates with empty keys can be
dropped without changing its result), but the normalized-key-equality
tier does treat the empty key as a match target: a candidate normalizing
to empty resolves to the last actual label whose normalized key is
empty, if any. -/
theorem C10_empty_key_amended :
    (∀ (m : List (String × String)) (cands : List String),
        tier3 m cands = tier3 m (cands.filter (fun c => !(norm c == ""))))
      ∧ (∀ (cols : List String) (c : String), norm c = "" →
          lookupMap (buildNormMap cols) (norm c) = lastWith cols "") := by
  constructor
  · intro m cands
    induction cands with
    | nil => rfl
    | cons a cs ih =>
      by_cases h : norm a = ""
      · have hnone : m.find?
            (fun p => decide (norm a ≠ "") && isSubOf (norm a).data p.1.data) =
            none := by
          rw [List.find?_eq_none]
          intro p _
          simp [h]
        have hfa : (!(norm a == "")) = false := by simp [h]
        simp only [tier3, List.findSome?_cons, List.filter_cons, hfa,
          Bool.false_eq_true, if_false, hnone, Option.map_none']
        exact ih
      · have hfa : (!(norm a == "")) = true := by simp [h]
        simp only [tier3, List.findSome?_cons, List.filter_cons, hfa,
          eq_self_iff_true, if_true]
        cases (m.find?
            (fun p => decide (norm a ≠ "") && isSubOf (norm a).data p.1.data)).map
            (fun p => p.2) with
        | some v => rfl
        | none => exact ih
  · intro cols c h
    rw [lookup_buildNormMap, h]

/-- Witness for C10 at the concrete empty-key table. -/
theorem C10_witness :
    tier3 (buildNormMap tbl10.cols) ["-"] =
        tier3 (buildNormMap tbl10.cols) ((["-"]).filter (fun c => !(norm c == "")))
      ∧ lookupMap (buildNormMap tbl10.cols) (norm "-") = lastWith tbl10.cols "" :=
  ⟨C10_empty_key_amended.1 (buildNormMap tbl10.cols) ["-"],
   C10_empty_key_amended.2 tbl10.cols "-" (by decide)⟩

/-! ### Claim C5 -/

theorem grd_go_all_empty (q : Int → DayResult) :
    ∀ (k : Nat) (d : Int), (∀ i : Nat, i < k → q (d - i) ≠ DayResult.hasRows) →
      grd_go q k d = d - k := by
  intro k
  induction k with
  | zero => intro d _; simp [grd_go]
  | succ n ih =>
    intro d h
    have h0 : q d ≠ DayResult.hasRows := by
      have := h 0 (Nat.succ_pos n)
      simpa using this
    have hrec : grd_go q n (d - 1) = (d - 1) - n := by
      apply ih
      intro i hi
      have := h (i + 1) (by omega)
      have hc : d - 1 - (i : Int) = d - ((i + 1 : Nat) : Int) := by
        push_cast
        ring
      rw [hc]
      exact this
    unfold grd_go
    cases hq : q d with
    | hasRows => exact absurd hq h0
    | noRows =>
      rw [hrec]
      push_cast
      ring
    | err =>
      rw [hrec]
      push_cast
      ring

theorem grd_go_first_success (q : Int → DayResult) :
    ∀ (k : Nat) (d : Int) (i : Nat), i < k →
      (∀ j : Nat, j < i → q (d - j) ≠ DayResult.hasRows) →
      q (d - i) = DayResult.hasRows → grd_go q k d = d - i := by
  intro k
  induction k with
  | zero => intro d i hi; exact absurd hi (Nat.not_lt_zero i)
  | succ n ih =>
    intro d i hi hno hyes
    cases i with
    | zero =>
      have hd : q d = DayResult.hasRows := by
        have hc : d - ((0 : Nat) : Int) = d := by push_cast; ring
        rw [hc] at hyes
        exact hyes
      unfold grd_go
      rw [hd]
      push_cast
      ring
    | succ m =>
      have h0 : q d ≠ DayResult.hasRows := by
        have := hno 0 (Nat.succ_pos m)
        simpa using this
      have hrec : grd_go q n (d - 1) = (d - 1) - m := by
        apply ih (d - 1) m (by omega)
        · intro j hj
          have := hno (j + 1) (by omega)
          have hc : d - 1 - (j : Int) = d - ((j + 1 : Nat) : Int) := by
            push_cast
            ring
          rw [hc]
          exact this
        · have hc : d - 1 - (m : Int) = d - ((m + 1 : Nat) : Int) := by
            push_cast
            ring
          rw [hc]
          exact hyes
      unfold grd_go
      cases hq : q d with
      | hasRows => exact absurd hq h0
      | noRows =>
        rw [hrec]
        push_cast
        ring
      | err =>
        rw [hrec]
        push_cast
        ring

theorem grd_go_insensitive (q1 q2 : Int → DayResult)
    (h : ∀ d, q1 d = DayResult.hasRows ↔ q2 d = DayResult.hasRows) :
    ∀ (k : Nat) (d : Int), grd_go q1 k d = grd_go q2 k d := by
  intro k
  induction k with
  | zero => intro d; rfl
  | succ n ih =>
    intro d
    unfold grd_go
    cases h1 : q1 d with
    | hasRows =>
      rw [(h d).mp h1]
    | noRows =>
      have h2 : q2 d ≠ DayResult.hasRows := by
        intro hc
        rw [(h d).mpr hc] at h1
        cases h1
      cases h2' : q2 d with
      | hasRows => exact absurd h2' h2
      | noRows => exact ih (d - 1)
      | err => exact ih (d - 1)
    | err =>
      have h2 : q2 d ≠ DayResult.hasRows := by
        intro hc
        rw [(h d).mpr hc] at h1
        cases h1
      cases h2' : q2 d with
      | hasRows => exact absurd h2' h2
      | noRows => exact ih (d - 1)
      | err => exact ih (d - 1)

theorem daysQueried_go_length (q : Int → DayResult) :
    ∀ (k : Nat) (d : Int), (daysQueried_go q k d).length ≤ k := by
  intro k
  induction k with
  | zero => intro d; simp [daysQueried_go]
  | succ n ih =>
    intro d
    unfold daysQueried_go
    cases q d with
    | hasRows => simp
    | noRows => simpa using Nat.succ_le_succ (ih (d - 1))
    | err => simpa using Nat.succ_le_succ (ih (d - 1))

/-- Claim C5, as frozen, is false on one point: when all 20 attempts find
nothing the function does not return the last date tried.  With a query
that always returns empty and base day 0, the days queried are 0 .. -19,
yet the returned value is -20 — a day that was never tried. -/
theorem C5_counterexample :
    get_recent_trading_day qEmpty 0 = -20
      ∧ days_queried qEmpty 0 =
          [0, -1, -2, -3, -4, -5, -6, -7, -8, -9, -10, -11, -12,
           -13, -14, -15, -16, -17, -18, -19]
      ∧ (-20 : Int) ∉ days_queried qEmpty 0 := by
  refine ⟨rfl, rfl, by decide⟩

/-- Claim C5 (amended): the locator performs at most 20 single-day
queries; a query error on a day is treated identically to an empty
result; it returns the first date reached (stepping back one day at a
time) whose query yields rows; and if all 20 attempts yield nothing it
terminates and returns the base date minus 20 days — one day before the
last date tried — rather than raising. -/
theorem C5_locator_amended (q : Int → DayResult) (base : Int) :
    (days_queried q base).length ≤ 20
      ∧ ((∀ i : Nat, i < 20 → q (base - i) ≠ DayResult.hasRows) →
          get_recent_trading_day q base = base - 20)
      ∧ (∀ i : Nat, i < 20 →
          (∀ j : Nat, j < i → q (base - j) ≠ DayResult.hasRows) →
          q (base - i) = DayResult.hasRows →
          get_recent_trading_day q base = base - i)
      ∧ (∀ q2 : Int → DayResult,
          (∀ d, q d = DayResult.hasRows ↔ q2 d = DayResult.hasRows) →
          get_recent_trading_day q base = get_recent_trading_day q2 base) := by
  refine ⟨daysQueried_go_length q 20 base, ?_, ?_, ?_⟩
  · intro h
    have := grd_go_all_empty q 20 base h
    simpa [get_recent_trading_day] using this
  · intro i hi hno hyes
    exact grd_go_first_success q 20 base i hi hno hyes
  · intro q2 h
    exact grd_go_insensitive q q2 h 20 base

/-- Witness for C5 at the always-empty query. -/
theorem C5_witness : get_recent_trading_day qEmpty 0 = 0 - 20 :=
  (C5_locator_amended qEmpty 0).2.1 (fun i _ h => by cases h)

/-! ### Claim C3 -/

/-- Claim C3: with a non-empty primary table, a resolution failure of any
of the five required fields makes the assembler return absent and print
the missing logical names together with the full observed label set; a
coercion failure of a resolved required value likewise returns absent
(the record is dropped whole, so no partial row can be written). -/
theorem C3_required_field_failure_skips
    (fe : FetchEnv) (date_str ticker : String) (t : Table)
    (row : String → Option Cell) (rest : List (String → Option Cell))
    (hov : fe.ohlcv = some t) (hrows : t.rows = row :: rest) :
    (requiredMissing t ≠ [] →
      fetch_daily_for_ticker fe date_str ticker =
        (none, [LogMsg.warnMissing ticker (requiredMissing t) t.cols]))
    ∧ (requiredMissing t = [] →
        (∃ p ∈ requiredNeeded t, reqCoerce row p.2 = none) →
        (fetch_daily_for_ticker fe date_str ticker).1 = none) := by
  constructor
  · intro hm
    simp only [fetch_daily_for_ticker, hov, hrows]
    rw [if_pos hm]
  · intro hm hex
    simp only [fetch_daily_for_ticker, hov, hrows]
    rw [if_neg (by simp [hm])]
    rcases hex with ⟨p, hp, hpc⟩
    simp only [requiredNeeded, List.mem_cons, List.not_mem_nil, or_false] at hp
    rcases hp with rfl | rfl | rfl | rfl | rfl <;>
      (cases c1 : reqCoerce row (pick_col (some t) ["시가"]) <;>
        cases c2 : reqCoerce row (pick_col (some t) ["고가"]) <;>
          cases c3 : reqCoerce row (pick_col (some t) ["저가"]) <;>
            cases c4 : reqCoerce row (pick_col (some t) ["종가"]) <;>
              cases c5 : reqCoerce row (pick_col (some t) ["거래량"]) <;>
                simp_all)

/-- Witness for C3: a table lacking the volume column is skipped with the
diagnostic naming 거래량 and listing the four labels observed. -/
theorem C3_witness :
    fetch_daily_for_ticker feC3 "20250929" "082270" =
        (none, [LogMsg.warnMissing "082270" (requiredMissing ohlcvMissingVol)
          ohlcvMissingVol.cols])
      ∧ requiredMissing ohlcvMissingVol = ["거래량"] :=
  ⟨(C3_required_field_failure_skips feC3 "20250929" "082270" ohlcvMissingVol
      rowMissing [] rfl rfl).1 (by decide), by decide⟩

/-! ### Claim C4 -/

/-- Claim C4 is violated by the code (code bug): the quantity and value
coercions in `try_fetch_short` are unguarded, so a quantity cell that
fails integer coercion raises; the assembler's outer handler catches it
and drops the WHOLE record, even though every required field resolved and
coerced.  (Only the ratio coercion degrades independently.) -/
theorem C4_short_coercion_drops_record :
    try_fetch_short true (some shortTblBad) = Except.error ()
      ∧ requiredMissing ohlcvTblEx = []
      ∧ (fetch_daily_for_ticker feC4 "20250929" "082270").1 = none
      ∧ (fetch_daily_for_ticker feC4 "20250929" "082270").2
          = [LogMsg.warnExc "082270"] := by
  refine ⟨rfl, rfl, rfl, rfl⟩

/-! ### Claim C6 -/

theorem existing_dates_append_row (sheet : List (List CellOut)) (r : Rec)
    (hs : sheet ≠ []) (hk : r.date ≠ "") :
    existing_dates (sheet ++ [toRow r]) = existing_dates sheet ++ [r.date] := by
  cases sheet with
  | nil => exact absurd rfl hs
  | cons a l =>
    have hf : (match (toRow r).head? with
        | none => none
        | some c => if cellStr c ≠ "" then some (cellStr c) else none) =
        some r.date := by
      rw [show (toRow r).head? = some (CellOut.s r.date) from rfl]
      simp [cellStr, hk]
    simp only [existing_dates, List.cons_append, List.drop_succ_cons,
      List.drop_zero, List.filterMap_append, List.filterMap_cons,
      List.filterMap_nil, hf]

/-- Claim C6: the per-destination dedup-append step is idempotent — after
one append of a record the same record is recognised by its date key,
the skip is logged and the sheet is unchanged — and it preserves the
no-two-rows-share-a-key invariant. -/
theorem C6_dedup_idempotent (sheet : List (List CellOut)) (r : Rec)
    (hk : r.date ≠ "") (hs : sheet ≠ []) :
    dedupAppend (dedupAppend sheet r).1 r = ((dedupAppend sheet r).1, true)
      ∧ (r.date ∉ existing_dates sheet →
          dedupAppend sheet r = (sheet ++ [toRow r], false))
      ∧ ((existing_dates sheet).Nodup →
          (existing_dates (dedupAppend sheet r).1).Nodup) := by
  by_cases hin : r.date ∈ existing_dates sheet
  · refine ⟨?_, fun hno => absurd hin hno, fun hnd => ?_⟩
    · simp [dedupAppend, hin]
    · simp [dedupAppend, hin, hnd]
  · have happ : (dedupAppend sheet r).1 = sheet ++ [toRow r] := by
      simp [dedupAppend, hin]
    have hed : existing_dates (sheet ++ [toRow r]) =
        existing_dates sheet ++ [r.date] :=
      existing_dates_append_row sheet r hs hk
    refine ⟨?_, fun _ => by simp [dedupAppend, hin], fun hnd => ?_⟩
    · rw [happ]
      simp [dedupAppend, hed]
    · rw [happ, hed]
      simp [List.nodup_append, hnd, hin]

/-- Witness for C6: appending the sample record to the header-only sheet
twice keeps the sheet of the first append and reports the skip. -/
theorem C6_witness :
    dedupAppend (dedupAppend sheetHdr rec0).1 rec0 =
      ((dedupAppend sheetHdr rec0).1, true) :=
  (C6_dedup_idempotent sheetHdr rec0 (by decide) (by decide)).1

/-! ### Claim C7 -/

theorem try_fetch_investor_failed (inc : Bool) (p : InvProvider)
    (h : invQueryFailed p) : try_fetch_investor inc p = ⟨none, none, none⟩ := by
  rcases h with rfl | rfl | rfl | ⟨t, rfl, ht⟩
  · cases inc <;> rfl
  · cases inc <;> rfl
  · cases inc <;> rfl
  · cases inc
    · rfl
    · simp [try_fetch_investor, ht]

/-- Claim C7: when the required fields resolve and coerce (and the short
branch does not raise), any investor-class query failure — missing
provider function, a raised exception, a `None` frame, or an empty frame
— leaves all three investor-class fields absent, never propagates, and
the record is still assembled and would be appended by the driver. -/
theorem C7_investor_failure_harmless
    (fe : FetchEnv) (date_str ticker : String) (t : Table)
    (row : String → Option Cell) (rest : List (String → Option Cell))
    (o hi lo cl v : Int) (sh : ShortOut)
    (hov : fe.ohlcv = some t) (hrows : t.rows = row :: rest)
    (hmiss : requiredMissing t = [])
    (h1 : reqCoerce row (pick_col (some t) ["시가"]) = some o)
    (h2 : reqCoerce row (pick_col (some t) ["고가"]) = some hi)
    (h3 : reqCoerce row (pick_col (some t) ["저가"]) = some lo)
    (h4 : reqCoerce row (pick_col (some t) ["종가"]) = some cl)
    (h5 : reqCoerce row (pick_col (some t) ["거래량"]) = some v)
    (hsh : try_fetch_short fe.includeShort fe.short = Except.ok sh)
    (hinv : invQueryFailed fe.investor) :
    ∃ r : Rec, (fetch_daily_for_ticker fe date_str ticker).1 = some r
      ∧ r.indiv = none ∧ r.frgn = none ∧ r.inst = none
      ∧ (∀ sheet : List (List CellOut), r.date ∉ existing_dates sheet →
          dedupAppend sheet r = (sheet ++ [toRow r], false)) := by
  simp only [fetch_daily_for_ticker, hov, hrows]
  rw [if_neg (by simp [hmiss])]
  simp only [h1, h2, h3, h4, h5, hsh,
    try_fetch_investor_failed fe.includeInvestor fe.investor hinv]
  refine ⟨_, rfl, rfl, rfl, rfl, ?_⟩
  intro sheet hno
  simp [dedupAppend, hno]

/-- Witness for C7: the raising investor query at the healthy fixture. -/
theorem C7_witness :
    ∃ r : Rec, (fetch_daily_for_ticker feC7 "20250929" "082270").1 = some r
      ∧ r.indiv = none ∧ r.frgn = none ∧ r.inst = none
      ∧ (∀ sheet : List (List CellOut), r.date ∉ existing_dates sheet →
          dedupAppend sheet r = (sheet ++ [toRow r], false)) :=
  C7_investor_failure_harmless feC7 "20250929" "082270" ohlcvTblEx rowOhlcv []
    100 110 90 105 1000 ⟨none, none, none⟩ rfl rfl (by decide)
    (by decide) (by decide) (by decide) (by decide) (by decide) rfl
    (Or.inr (Or.inl rfl))

/-! ### Claim C8 -/

/-- Claim C8: serialization into the canonical header order renders each
absent optional field — turnover value, the three investor-class fields,
the three short-interest fields, at header positions 8..14 — as the
empty cell, which is distinct from every integer cell and in particular
from the literal zero. -/
theorem C8_absent_renders_blank (r : Rec) :
    (r.valueV = none → (toRow r)[8]? = some CellOut.blank)
      ∧ (r.indiv = none → (toRow r)[9]? = some CellOut.blank)
      ∧ (r.frgn = none → (toRow r)[10]? = some CellOut.blank)
      ∧ (r.inst = none → (toRow r)[11]? = some CellOut.blank)
      ∧ (r.shortQty = none → (toRow r)[12]? = some CellOut.blank)
      ∧ (r.shortAmt = none → (toRow r)[13]? = some CellOut.blank)
      ∧ (r.shortRatio = none → (toRow r)[14]? = some CellOut.blank)
      ∧ (∀ n : Int, CellOut.blank ≠ CellOut.i n)
      ∧ KR_HEADER[8]? = some "거래대금" := by
  refine ⟨?_, ?_, ?_, ?_, ?_, ?_, ?_, ?_, ?_⟩
  case refine_8 => intro n h; cases h
  case refine_9 => rfl
  · intro h
    rw [show (toRow r)[8]? = some (optCellI r.valueV) from rfl, h]
    rfl
  · intro h
    rw [show (toRow r)[9]? = some (optCellI r.indiv) from rfl, h]
    rfl
  · intro h
    rw [show (toRow r)[10]? = some (optCellI r.frgn) from rfl, h]
    rfl
  · intro h
    rw [show (toRow r)[11]? = some (optCellI r.inst) from rfl, h]
    rfl
  · intro h
    rw [show (toRow r)[12]? = some (optCellI r.shortQty) from rfl, h]
    rfl
  · intro h
    rw [show (toRow r)[13]? = some (optCellI r.shortAmt) from rfl, h]
    rfl
  · intro h
    rw [show (toRow r)[14]? = some (optCellF r.shortRatio) from rfl, h]
    rfl

/-- Witness for C8 at the all-optional-absent record. -/
theorem C8_witness :
    (toRow rec0)[8]? = some CellOut.blank
      ∧ (toRow rec0)[14]? = some CellOut.blank :=
  ⟨(C8_absent_renders_blank rec0).1 rfl,
   (C8_absent_renders_blank rec0).2.2.2.2.2.2.1 rfl⟩

/-! ### Claim C9 -/

/-- Claim C9: `main` returns exit status 0 on every environment; on
missing credential or destination id it prints the configuration
diagnostic and leaves the destination untouched; when the run body
raises, the exception is caught at top level (stack trace reported) and
0 is still returned with the destination untouched. -/
theorem C9_main_exit_zero (env : RunEnv) :
    (main env).exit = 0
      ∧ (misconfig env = true →
          (main env).world = env.sheets0 ∧ (main env).configError = true)
      ∧ (misconfig env = false → env.authOk = false →
          (main env).world = env.sheets0 ∧ (main env).excCaught = true) := by
  unfold main
  by_cases h : misconfig env = true
  · simp [h]
  · have hf : misconfig env = false := by simpa using h
    cases ha : env.authOk <;> simp [hf, ha]

/-- Witness for C9 at the credential-less environment. -/
theorem C9_witness :
    (main envMis).exit = 0
      ∧ (main envMis).world = envMis.sheets0
      ∧ (main envMis).configError = true :=
  ⟨(C9_main_exit_zero envMis).1,
   ((C9_main_exit_zero envMis).2.1 (by decide)).1,
   ((C9_main_exit_zero envMis).2.1 (by decide)).2⟩

end KrxDaily
